import Mathlib

/-!
whats-above-me: containment test, bounding box, sighting cooldown.

A shallow embedding of `main.go`.

* `float64` is modelled bit-exactly: a value of `F64` is the sign bit together
  with the remaining 63 bits (exponent field and fraction field) read as one
  number.  Comparison, `math.Nextafter`, `math.Max`, `math.Min`, subtraction and
  division follow IEEE 754 binary64 with round-to-nearest-even, which is what Go
  specifies for `float64`.
* `int64` timestamps are integers with explicit wrap-around at `2^63`.
* The perturbation loop of `raycastIntersect` has no bound in the source, so it
  is run with a fuel argument; running out of fuel is the fault `outOfFuel`.
* A Go runtime panic is a value of `Fault`; a function that can panic or run
  out of fuel returns `Except Fault`.
* A `[]float64` is a list, and reading an index it does not have is the panic
  `indexOutOfRange`.
-/

namespace WhatsAboveMe

/-! ## float64 -/

/-- A binary64 bit pattern: `neg` is bit 63, `mag` is bits 62..0.  Every `mag`
above `F64.infMag` is a NaN; the program never inspects a NaN payload, so the
payload range is left unbounded. -/
structure F64 where
  neg : Bool
  mag : Nat
deriving DecidableEq, Repr

namespace F64

/-- Bits 62..0 of an infinity: exponent field 2047, fraction 0. -/
def infMag : Nat := 0x7FF0000000000000

/-- Go `math.NaN()`: bit pattern 0x7FF8000000000001. -/
def NaN : F64 := ⟨false, 0x7FF8000000000001⟩

/-- Go `math.Inf(sign)`: positive infinity when `sign >= 0`, else negative. -/
def Inf (sign : Int) : F64 := ⟨decide (sign < 0), infMag⟩

/-- Positive zero. -/
def zero : F64 := ⟨false, 0⟩

/-- Go `math.IsNaN`. -/
def isNaN (x : F64) : Bool := decide (infMag < x.mag)

/-- Neither NaN nor an infinity. -/
def isFinite (x : F64) : Bool := decide (x.mag < infMag)

/-- Position of a non-NaN value in the order of the extended reals: binary64 is
a sign-magnitude format whose magnitudes are ordered like their bit patterns,
and both zeros share the position 0. -/
def key (x : F64) : Int := if x.neg then -(x.mag : Int) else (x.mag : Int)

/-- Go `x == y` on float64: false when either side is NaN. -/
def feq (x y : F64) : Bool := !x.isNaN && !y.isNaN && decide (x.key = y.key)

/-- Go `x < y` on float64: false when either side is NaN. -/
def flt (x y : F64) : Bool := !x.isNaN && !y.isNaN && decide (x.key < y.key)

/-- Go `x > y` on float64. -/
def fgt (x y : F64) : Bool := flt y x

/-- Go `x >= y` on float64: false when either side is NaN. -/
def fge (x y : F64) : Bool := !x.isNaN && !y.isNaN && decide (y.key ≤ x.key)

/-- Significand of a finite value, the hidden bit included for a normal one. -/
def sig (x : F64) : Nat :=
  if x.mag / 2 ^ 52 = 0 then x.mag % 2 ^ 52 else 2 ^ 52 + x.mag % 2 ^ 52

/-- Binary exponent of a finite value counted from that of the subnormals: the
absolute value of `x` is `sig x * 2 ^ bexp x` units of `2 ^ (-1074)`. -/
def bexp (x : F64) : Nat := x.mag / 2 ^ 52 - 1

/-- Number of binary digits of `n`; the first argument bounds the recursion. -/
def bitLenAux : Nat → Nat → Nat
  | 0, _ => 0
  | fuel + 1, n => if n = 0 then 0 else bitLenAux fuel (n / 2) + 1

/-- Number of binary digits of `n`: the least `b` with `n < 2 ^ b`. -/
def bitLen (n : Nat) : Nat := bitLenAux n n

/-- Quotient `num / den` rounded to the nearest integer, ties to even. -/
def rne (num den : Nat) : Nat :=
  let q := num / den
  let r := num % den
  if den < 2 * r ∨ (2 * r = den ∧ q % 2 = 1) then q + 1 else q

/-- Magnitude bits of the binary64 nearest to `n / d` units of `2 ^ (-1074)`
(ties to even, overflow to infinity).  With `b` the least exponent that brings
the significand below `2 ^ 53`, the pattern is `b * 2 ^ 52 + significand`: a
subnormal has `b = 0`, a normal one carries its hidden bit into the exponent
field, and a significand rounded up to `2 ^ 53` carries once more. -/
def roundMag (n d : Nat) : Nat :=
  let b := bitLen (n / (d * 2 ^ 53))
  let m := b * 2 ^ 52 + rne n (d * 2 ^ b)
  if infMag ≤ m then infMag else m

/-- The binary64 nearest to the rational `n / d`. -/
def ofRat (n : Int) (d : Nat) : F64 :=
  ⟨decide (n < 0), roundMag (n.natAbs * 2 ^ 1074) d⟩

/-- The binary64 nearest to the integer `n`. -/
def ofInt (n : Int) : F64 := ofRat n 1

/-- A finite value in units of `2 ^ (-1074)`, an integer. -/
def units (x : F64) : Int :=
  if x.neg then -((x.sig * 2 ^ x.bexp : Nat) : Int)
  else ((x.sig * 2 ^ x.bexp : Nat) : Int)

/-- Go `x - y` on float64. -/
def sub (x y : F64) : F64 :=
  if x.isNaN || y.isNaN then NaN
  else if x.mag = infMag then
    (if y.mag = infMag ∧ x.neg = y.neg then NaN else x)
  else if y.mag = infMag then ⟨!y.neg, infMag⟩
  else
    let D := x.units - y.units
    if D = 0 then ⟨x.neg && !y.neg, 0⟩
    else ⟨decide (D < 0), roundMag D.natAbs 1⟩

/-- Go `x / y` on float64. -/
def div (x y : F64) : F64 :=
  if x.isNaN || y.isNaN then NaN
  else if x.mag = infMag then
    (if y.mag = infMag then NaN else ⟨xor x.neg y.neg, infMag⟩)
  else if y.mag = infMag then ⟨xor x.neg y.neg, 0⟩
  else if y.mag = 0 then
    (if x.mag = 0 then NaN else ⟨xor x.neg y.neg, infMag⟩)
  else
    ⟨xor x.neg y.neg, roundMag (x.sig * 2 ^ (x.bexp + 1074)) (y.sig * 2 ^ y.bexp)⟩

/-- Go `math.Nextafter(x, y)`: the next representable value after `x` towards
`y`, following the standard library's case analysis on the bit pattern. -/
def Nextafter (x y : F64) : F64 :=
  if x.isNaN || y.isNaN then NaN
  else if feq x y then x
  else if feq x zero then ⟨y.neg, 1⟩
  else if fgt y x = fgt x zero then ⟨x.neg, x.mag + 1⟩
  else ⟨x.neg, x.mag - 1⟩

/-- Go `math.Max(x, y)`. -/
def Max (x y : F64) : F64 :=
  if (x.mag = infMag ∧ x.neg = false) ∨ (y.mag = infMag ∧ y.neg = false) then Inf 1
  else if x.isNaN || y.isNaN then NaN
  else if feq x zero && feq x y then (if x.neg then y else x)
  else if fgt x y then x
  else y

/-- Go `math.Min(x, y)`. -/
def Min (x y : F64) : F64 :=
  if (x.mag = infMag ∧ x.neg = true) ∨ (y.mag = infMag ∧ y.neg = true) then Inf (-1)
  else if x.isNaN || y.isNaN then NaN
  else if feq x zero && feq x y then (if x.neg then x else y)
  else if flt x y then x
  else y

end F64

/-! ## Data model -/

/-- What stops a run: a Go runtime panic, or the fuel of the perturbation loop
running out. -/
inductive Fault
  | nilDereference
  | indexOutOfRange
  | outOfFuel
deriving DecidableEq, Repr

/-- The bounding box to watch.  Each corner is the `[]float64` of the
configuration, of whatever length it was given; the program reads index 0 as
the latitude and index 1 as the longitude. -/
structure Area where
  NW : List F64
  NE : List F64
  SW : List F64
  SE : List F64
deriving DecidableEq, Repr

structure Config where
  Webhook : String
  Area : Area
  Airport : String
deriving DecidableEq, Repr

/-- The `coordinates` array of a feature as decoded, of whatever length the
feed sent; the program reads index 0 as the longitude and index 1 as the
latitude. -/
structure AircraftCoordinates where
  Coordinates : List F64
deriving DecidableEq, Repr

structure Airport where
  Code : String
deriving DecidableEq, Repr

/-- The `properties` object of a feature; `FlightType` is the field the source
calls `Type`. -/
structure AircraftProperties where
  Id : String
  Heading : Int
  Model : String
  FlightNumber : String
  Icon : String
  Origin : Airport
  Destination : Airport
  FlightType : String
  Altitude : Int
  GroundSpeed : Int
deriving DecidableEq, Repr

structure Aircraft where
  Location : AircraftCoordinates
  Properties : AircraftProperties
deriving DecidableEq, Repr

/-- The `seen` map of `main`, `map[string]int64`: flight number to the Unix
time of its last post. -/
abbrev Seen := String → Option Int

/-- Go `xs[i]` on a `[]float64`: a panic when the slice has no index `i`. -/
def index (xs : List F64) (i : Nat) : Except Fault F64 :=
  match xs[i]? with
  | some x => .ok x
  | none => .error .indexOutOfRange

/-! ## Containment test -/

/-- The loop `for pLon == sLon || pLon == eLon` of `raycastIntersect`: each turn
replaces `pLon` by `math.Nextafter(pLon, math.Inf(1))`.  One unit of fuel pays
for one turn. -/
def perturb (sLon eLon : F64) : Nat → F64 → Except Fault F64
  | 0, pLon =>
    if F64.feq pLon sLon || F64.feq pLon eLon then .error .outOfFuel else .ok pLon
  | fuel + 1, pLon =>
    if F64.feq pLon sLon || F64.feq pLon eLon then
      perturb sLon eLon fuel (F64.Nextafter pLon (F64.Inf 1))
    else .ok pLon

/-- The same loop, returning every value `pLon` takes: the value on entry first,
the value on exit last. -/
def perturbTrace (sLon eLon : F64) : Nat → F64 → Except Fault (List F64)
  | 0, pLon =>
    if F64.feq pLon sLon || F64.feq pLon eLon then .error .outOfFuel else .ok [pLon]
  | fuel + 1, pLon =>
    if F64.feq pLon sLon || F64.feq pLon eLon then
      (perturbTrace sLon eLon fuel (F64.Nextafter pLon (F64.Inf 1))).map (fun t => pLon :: t)
    else .ok [pLon]

/-- The part of `raycastIntersect` after the loop: the range test on the
longitude, the two latitude tests of the falling or rising edge, and the
comparison of the two slopes. -/
def crossing (pLat pLon sLat sLon eLat eLon : F64) : Bool :=
  if F64.flt pLon sLon || F64.fgt pLon eLon then false
  else if F64.fgt sLat eLat then
    if F64.fgt pLat sLat then false
    else if F64.flt pLat eLat then true
    else F64.fge (F64.div (F64.sub pLon sLon) (F64.sub pLat sLat))
                 (F64.div (F64.sub eLon sLon) (F64.sub eLat sLat))
  else
    if F64.fgt pLat eLat then false
    else if F64.flt pLat sLat then true
    else F64.fge (F64.div (F64.sub pLon sLon) (F64.sub pLat sLat))
                 (F64.div (F64.sub eLon sLon) (F64.sub eLat sLat))

/-- Go `raycastIntersect`: swap the endpoints when `sLon > eLon`, run the
perturbation loop, then decide the crossing. -/
def raycastIntersect (fuel : Nat) (pLat pLon sLat sLon eLat eLon : F64) :
    Except Fault Bool :=
  if F64.fgt sLon eLon then
    (perturb eLon sLon fuel pLon).map (fun p => crossing pLat p eLat eLon sLat sLon)
  else
    (perturb sLon eLon fuel pLon).map (fun p => crossing pLat p sLat sLon eLat eLon)

/-- Go `InArea`: the position is read from the coordinates, then the four edges
NE-NW, SE-NE, SW-SE, NW-SW are tested in turn, the corners of each read just
before its test, each crossing flipping `contained`.  Every read is unchecked in
the source, so a slice that is too short panics at its first read. -/
def InArea (fuel : Nat) (area : Area) (aircraft : Aircraft) : Except Fault Bool := do
  let airLat ← index aircraft.Location.Coordinates 1
  let airLon ← index aircraft.Location.Coordinates 0
  let c1 ← raycastIntersect fuel airLat airLon (← index area.NE 0) (← index area.NE 1)
    (← index area.NW 0) (← index area.NW 1)
  let c2 ← raycastIntersect fuel airLat airLon (← index area.SE 0) (← index area.SE 1)
    (← index area.NE 0) (← index area.NE 1)
  let c3 ← raycastIntersect fuel airLat airLon (← index area.SW 0) (← index area.SW 1)
    (← index area.SE 0) (← index area.SE 1)
  let c4 ← raycastIntersect fuel airLat airLon (← index area.NW 0) (← index area.NW 1)
    (← index area.SW 0) (← index area.SW 1)
  let contained := c1
  let contained := if c2 then !contained else contained
  let contained := if c3 then !contained else contained
  let contained := if c4 then !contained else contained
  pure contained

/-! ## Bounding box and filter -/

/-- The four bounds `GetAircraftInWatchArea` computes, in the order
`(maxLat, minLat, maxLon, minLon)`; the corners are read unchecked. -/
def boundingBox (area : Area) : Except Fault (F64 × F64 × F64 × F64) := do
  let maxLat := F64.Max (← index area.NW 0) (← index area.NE 0)
  let minLat := F64.Min (← index area.SW 0) (← index area.SE 0)
  let maxLon := F64.Max (← index area.SE 1) (← index area.NE 1)
  let minLon := F64.Max (← index area.NW 1) (← index area.SW 1)
  pure (maxLat, minLat, maxLon, minLon)

/-- The loop of `GetAircraftInWatchArea` over the fetched aircraft; `inArea` is
the slice built so far. -/
def watchLoop (fuel : Nat) (area : Area) :
    List Aircraft → List Aircraft → Except Fault (List Aircraft)
  | [], inArea => .ok inArea
  | a :: rest, inArea =>
    if a.Properties.FlightType = "airline" ∨ a.Properties.FlightType = "cargo" then
      match InArea fuel area a with
      | .error f => .error f
      | .ok true => watchLoop fuel area rest (inArea ++ [a])
      | .ok false => watchLoop fuel area rest inArea
    else watchLoop fuel area rest inArea

/-- Go `GetAircraftInWatchArea`.  `GetAircraftInVicinity` is the HTTP request
and JSON decoding of the source, taken as a parameter: it fails with a nil
dereference when the request returns no response. -/
def GetAircraftInWatchArea (fuel : Nat)
    (GetAircraftInVicinity : F64 → F64 → F64 → F64 → String → Except Fault (List Aircraft))
    (area : Area) (token : String) : Except Fault (List Aircraft) :=
  match boundingBox area with
  | .error f => .error f
  | .ok (maxLat, minLat, maxLon, minLon) =>
    match GetAircraftInVicinity maxLon minLon maxLat minLat token with
    | .error f => .error f
    | .ok aircraft => watchLoop fuel area aircraft []

/-! ## Token and polling loop -/

/-- Go `GetFAToken`.  `httpGet` gives the body of the response, or `none` when
`http.Get` returns an error and a nil response; `FindStringSubmatch` is the
compiled token pattern applied to the body, the empty list standing for the nil
slice of a failed match. -/
def GetFAToken (httpGet : String → Option String)
    (FindStringSubmatch : String → List String) (code : String) : Except Fault String :=
  match httpGet ("https://flightaware.com/live/airport/" ++ code) with
  | none => .error .nilDereference
  | some body =>
    match (FindStringSubmatch body)[1]? with
    | none => .error .indexOutOfRange
    | some token => .ok token

/-- Two's-complement wrap of an integer into the range of `int64`. -/
def wrap64 (z : Int) : Int := (z + 2 ^ 63) % 2 ^ 64 - 2 ^ 63

/-- The cooldown check and the map update of the body of the inner loop of
`main` for one aircraft: the flag tells whether the post is made, the map is
`seen` afterwards.  The post itself is left to `notifyLoop`. -/
def sighting (seen : Seen) (flightNumber : String) (now : Int) : Bool × Seen :=
  match seen flightNumber with
  | some val =>
    if wrap64 (val + 7200) > now then (false, seen)
    else (true, fun k => if k = flightNumber then some now else seen k)
  | none => (true, fun k => if k = flightNumber then some now else seen k)

/-- A run of sightings in order: the flags and the final map. -/
def sightings (seen : Seen) : List (String × Int) → List Bool × Seen
  | [] => ([], seen)
  | (flightNumber, now) :: rest =>
    let r := sighting seen flightNumber now
    let rs := sightings r.2 rest
    (r.1 :: rs.1, rs.2)

/-- The posts a run of sightings makes, oldest first. -/
def posted (seen : Seen) : List (String × Int) → List (String × Int)
  | [] => []
  | (flightNumber, now) :: rest =>
    let r := sighting seen flightNumber now
    if r.1 then (flightNumber, now) :: posted r.2 rest else posted r.2 rest

/-- What one tick of `main` reads from outside the program. -/
structure Tick where
  httpGet : String → Option String
  FindStringSubmatch : String → List String
  GetAircraftInVicinity : F64 → F64 → F64 → F64 → String → Except Fault (List Aircraft)
  /-- The value of `time.Now().Unix()` at the k-th aircraft of the tick. -/
  now : Nat → Int
  /-- Whether `http.Post` returns a response: `postToWebhook` dereferences it
  unchecked, so it panics when there is none. -/
  postToWebhook : Aircraft → String → Bool

/-- The inner loop of `main` over `aircraftAbove`; `k` counts the aircraft
handled so far in this tick. -/
def notifyLoop (t : Tick) (webhook : String) :
    List Aircraft → Nat → Seen → Except Fault Seen
  | [], _, seen => .ok seen
  | a :: rest, k, seen =>
    match sighting seen a.Properties.FlightNumber (t.now k) with
    | (false, _) => notifyLoop t webhook rest (k + 1) seen
    | (true, seen1) =>
      if t.postToWebhook a webhook then notifyLoop t webhook rest (k + 1) seen1
      else .error .nilDereference

/-- The flight numbers of `aircraftAbove` paired with the clock readings the
inner loop of `main` takes, the first reading being the `k`-th of the tick. -/
def stamped (now : Nat → Int) : Nat → List Aircraft → List (String × Int)
  | _, [] => []
  | k, a :: rest => (a.Properties.FlightNumber, now k) :: stamped now (k + 1) rest

/-- One turn of the loop of `main`. -/
def tick (fuel : Nat) (config : Config) (t : Tick) (seen : Seen) : Except Fault Seen :=
  match GetFAToken t.httpGet t.FindStringSubmatch config.Airport with
  | .error f => .error f
  | .ok token =>
    match GetAircraftInWatchArea fuel t.GetAircraftInVicinity config.Area token with
    | .error f => .error f
    | .ok aircraftAbove => notifyLoop t config.Webhook aircraftAbove 0 seen

/-- The loop of `main` over a run of ticks: the program has no `recover`, so the
first fault ends the process and the later ticks never run. -/
def mainLoop (fuel : Nat) (config : Config) : List Tick → Seen → Except Fault Seen
  | [], seen => .ok seen
  | t :: rest, seen =>
    match tick fuel config t seen with
    | .error f => .error f
    | .ok seen1 => mainLoop fuel config rest seen1

/-- Results are compared by comparing values with values and faults with
faults. -/
instance instDecidableEqExceptFault {α : Type} [DecidableEq α] :
    DecidableEq (Except Fault α)
  | .ok a, .ok b =>
    if h : a = b then isTrue (by rw [h]) else isFalse (fun e => h (by cases e; rfl))
  | .error a, .error b =>
    if h : a = b then isTrue (by rw [h]) else isFalse (fun e => h (by cases e; rfl))
  | .ok _, .error _ => isFalse (fun e => by cases e)
  | .error _, .ok _ => isFalse (fun e => by cases e)

/-- The axis-aligned rectangle with north and south latitudes `N`, `S` and east
and west longitudes `E`, `W`. -/
def rectangle (N S E W : F64) : Area := ⟨[N, W], [N, E], [S, W], [S, E]⟩

/-- An aircraft at latitude `lat` and longitude `lon`. -/
def aircraftAt (lat lon : F64) (props : AircraftProperties) : Aircraft :=
  ⟨⟨[lon, lat]⟩, props⟩

/-- The corner holds a latitude and a longitude, both finite. -/
def finiteCorner : List F64 → Bool
  | lat :: lon :: _ => lat.isFinite && lon.isFinite
  | _ => false

/-- Every corner of the area holds a latitude and a longitude, both finite. -/
def Area.isFinite (area : Area) : Bool :=
  finiteCorner area.NW && finiteCorner area.NE && finiteCorner area.SW && finiteCorner area.SE

/-- The aircraft `GetAircraftInWatchArea` keeps: type airline or cargo, and
`InArea` answering true. -/
def kept (fuel : Nat) (area : Area) (a : Aircraft) : Bool :=
  (decide (a.Properties.FlightType = "airline") || decide (a.Properties.FlightType = "cargo"))
    && decide (InArea fuel area a = .ok true)

/-- Time of the last post for `id` in a list of posts, oldest first. -/
def lastPost (id : String) : List (String × Int) → Option Int
  | [] => none
  | (i, t) :: rest =>
    match lastPost id rest with
    | some u => some u
    | none => if i = id then some t else none

/-! ## Reference notions and sample data -/

/-- Twice the signed area of the triangle `a`, `b`, `p`, longitude as abscissa
and latitude as ordinate, computed exactly on the integer values of finite
coordinates: positive when `p` lies to the left of the line directed from `a` to
`b`, negative when it lies to the right. -/
def side (aLat aLon bLat bLon pLat pLon : F64) : Int :=
  (bLon.units - aLon.units) * (pLat.units - aLat.units)
    - (bLat.units - aLat.units) * (pLon.units - aLon.units)

/-- The corners, each a latitude and a longitude, walked NW, NE, SE, SW turn
right at every corner: the area is a non-degenerate convex quadrilateral. -/
def Area.convex : Area → Bool
  | ⟨[nwLat, nwLon], [neLat, neLon], [swLat, swLon], [seLat, seLon]⟩ =>
    decide (side nwLat nwLon neLat neLon seLat seLon < 0) &&
    decide (side neLat neLon seLat seLon swLat swLon < 0) &&
    decide (side seLat seLon swLat swLon nwLat nwLon < 0) &&
    decide (side swLat swLon nwLat nwLon neLat neLon < 0)
  | _ => false

/-- The position lies strictly inside a convex area: strictly to the right of
each of the four edges walked NW, NE, SE, SW. -/
def Area.strictlyInside : Area → F64 → F64 → Bool
  | ⟨[nwLat, nwLon], [neLat, neLon], [swLat, swLon], [seLat, seLon]⟩, lat, lon =>
    decide (side nwLat nwLon neLat neLon lat lon < 0) &&
    decide (side neLat neLon seLat seLon lat lon < 0) &&
    decide (side seLat seLon swLat swLon lat lon < 0) &&
    decide (side swLat swLon nwLat nwLon lat lon < 0)
  | _, _, _ => false

/-- The position lies strictly outside a convex area: strictly to the left of
one of the four edges walked NW, NE, SE, SW. -/
def Area.strictlyOutside : Area → F64 → F64 → Bool
  | ⟨[nwLat, nwLon], [neLat, neLon], [swLat, swLon], [seLat, seLon]⟩, lat, lon =>
    decide (0 < side nwLat nwLon neLat neLon lat lon) ||
    decide (0 < side neLat neLon seLat seLon lat lon) ||
    decide (0 < side seLat seLon swLat swLon lat lon) ||
    decide (0 < side swLat swLon nwLat nwLon lat lon)
  | _, _, _ => false

/-- An airline flight with flight number AAL100. -/
def sampleProps : AircraftProperties :=
  ⟨"a1b2c3", 270, "B738", "AAL100", "airliner", ⟨"DFW"⟩, ⟨"SEA"⟩, "airline", 350, 440⟩

/-- An airline feature whose `coordinates` array holds the single number 1/2. -/
def shortAirline : Aircraft := ⟨⟨[F64.ofRat 1 2]⟩, sampleProps⟩

/-- A general-aviation feature without coordinates. -/
def shortGeneralAviation : Aircraft :=
  ⟨⟨[]⟩, ⟨"d4e5f6", 90, "C172", "N123AB", "ga", ⟨"BFI"⟩, ⟨"PAE"⟩, "ga", 30, 100⟩⟩

/-- A convex area whose north edge falls from latitude 4 at longitude 0 to
latitude 3 at longitude 4: NW = (4, 0), NE = (3, 4), SE = (0, 4), SW = (0, 0). -/
def fallingNorthEdge : Area :=
  ⟨[F64.ofInt 4, F64.ofInt 0], [F64.ofInt 3, F64.ofInt 4], [F64.ofInt 0, F64.ofInt 0],
    [F64.ofInt 0, F64.ofInt 4]⟩

/-- A convex area whose west edge leans east towards the south: NW = (4, 0),
NE = (4, 8), SE = (0, 8), SW = (0, 4). -/
def leaningWestEdge : Area :=
  ⟨[F64.ofInt 4, F64.ofInt 0], [F64.ofInt 4, F64.ofInt 8], [F64.ofInt 0, F64.ofInt 4],
    [F64.ofInt 0, F64.ofInt 8]⟩

/-- A tick on which the airport page is fetched but holds no token: the pattern
finds no match. -/
def tickWithoutToken : Tick :=
  { httpGet := fun _ => some "<html><body>Service unavailable</body></html>"
    FindStringSubmatch := fun _ => []
    GetAircraftInVicinity := fun _ _ _ _ _ => .ok []
    now := fun _ => 1700000000
    postToWebhook := fun _ _ => true }

/-- A tick on which the token is found and one airline flight is reported at
latitude 1/2 and longitude 1/2. -/
def tickWithFlight : Tick :=
  { httpGet := fun _ => some "\"VICINITY_TOKEN\":\"abc123\""
    FindStringSubmatch := fun _ => ["VICINITY_TOKEN\":\"abc123\"", "abc123"]
    GetAircraftInVicinity := fun _ _ _ _ _ =>
      .ok [aircraftAt (F64.ofRat 1 2) (F64.ofRat 1 2) sampleProps]
    now := fun _ => 1700000000
    postToWebhook := fun _ _ => true }

/-! ## The float64 model on known values -/

/-- The bit patterns of 1, 2, 4, -4, 1/2 and 1/3 (the last one rounded). -/
theorem F64.known_patterns :
    F64.ofInt 1 = ⟨false, 0x3FF0000000000000⟩ ∧
    F64.ofInt 2 = ⟨false, 0x4000000000000000⟩ ∧
    F64.ofInt 4 = ⟨false, 0x4010000000000000⟩ ∧
    F64.ofInt (-4) = ⟨true, 0x4010000000000000⟩ ∧
    F64.ofRat 1 2 = ⟨false, 0x3FE0000000000000⟩ ∧
    F64.ofRat 1 3 = ⟨false, 0x3FD5555555555555⟩ ∧
    F64.div (F64.ofInt 1) (F64.ofInt 3) = ⟨false, 0x3FD5555555555555⟩ ∧
    F64.sub (F64.ofRat 1 10) (F64.ofRat 3 10) = ⟨true, 0x3FC9999999999999⟩ := by
  decide!

/-- Division by a zero gives an infinity of the sign of the operands, zero by
zero gives a NaN, and a difference that vanishes is the positive zero. -/
theorem F64.division_by_zero :
    F64.div (F64.ofInt 2) ⟨false, 0⟩ = F64.Inf 1 ∧
    F64.div (F64.ofInt 2) ⟨true, 0⟩ = F64.Inf (-1) ∧
    (F64.div ⟨false, 0⟩ ⟨false, 0⟩).isNaN = true ∧
    F64.sub (F64.ofInt 4) (F64.ofInt 4) = ⟨false, 0⟩ := by
  decide!

/-- `Nextafter` towards positive infinity: one bit pattern up from 1, from either
zero to the least subnormal, from the greatest finite value to infinity, and
from positive infinity to itself. -/
theorem F64.Nextafter_known :
    F64.Nextafter (F64.ofInt 1) (F64.Inf 1) = ⟨false, 0x3FF0000000000001⟩ ∧
    F64.Nextafter ⟨true, 0⟩ (F64.Inf 1) = ⟨false, 1⟩ ∧
    F64.Nextafter ⟨true, 1⟩ (F64.Inf 1) = ⟨true, 0⟩ ∧
    F64.Nextafter ⟨false, 0x7FEFFFFFFFFFFFFF⟩ (F64.Inf 1) = F64.Inf 1 ∧
    F64.Nextafter (F64.Inf 1) (F64.Inf 1) = F64.Inf 1 := by
  decide!

/-- The wrap of `int64`: adding 7200 to the greatest value lands near the least. -/
theorem wrap64_known :
    wrap64 (1700000000 + 7200) = 1700007200 ∧
    wrap64 (9223372036854775807 + 7200) = -9223372036854768609 := by
  decide!

/-- At positive infinity the loop makes no progress: with an endpoint at positive
infinity and the point there too, no amount of fuel is enough. -/
theorem perturb_posInf (s : F64) (fuel : Nat) :
    perturb s (F64.Inf 1) fuel (F64.Inf 1) = .error .outOfFuel := by
  have h1 : F64.feq (F64.Inf 1) (F64.Inf 1) = true := by decide!
  have h2 : F64.Nextafter (F64.Inf 1) (F64.Inf 1) = F64.Inf 1 := by decide!
  induction fuel with
  | zero => simp [perturb, h1]
  | succ n ih => simp only [perturb, h1, Bool.or_true, if_true, h2]; exact ih

/-- The loop and its trace agree: they fail together, and when the trace is
returned its last value is the result of the loop. -/
theorem perturb_trace_last (s e : F64) (fuel : Nat) (p : F64) :
    (∀ f, perturbTrace s e fuel p = .error f → perturb s e fuel p = .error f) ∧
    (∀ t, perturbTrace s e fuel p = .ok t →
      ∃ q, t.getLast? = some q ∧ perturb s e fuel p = .ok q) := by
  induction fuel generalizing p with
  | zero =>
    simp only [perturb, perturbTrace]
    split
    · constructor
      · intro f h; cases h; rfl
      · intro t h; cases h
    · constructor
      · intro f h; cases h
      · intro t h; cases h; exact ⟨p, rfl, rfl⟩
  | succ n ih =>
    simp only [perturb, perturbTrace]
    split
    · obtain ⟨ih1, ih2⟩ := ih (F64.Nextafter p (F64.Inf 1))
      cases hq : perturbTrace s e n (F64.Nextafter p (F64.Inf 1)) with
      | error f =>
        constructor
        · intro g h; cases h; exact ih1 f hq
        · intro t h; cases h
      | ok t =>
        constructor
        · intro g h; cases h
        · intro u h
          cases h
          obtain ⟨q, h1, h2⟩ := ih2 t hq
          refine ⟨q, ?_, h2⟩
          cases t with
          | nil => cases h1
          | cons a t => simpa using h1
    · constructor
      · intro f h; cases h
      · intro t h; cases h; exact ⟨p, rfl, rfl⟩

/-- Two ticks that find the token and report AAL100 inside the unit square: the
first posts and stores the time, the second is within the cooldown and leaves
the map as it is. -/
theorem mainLoop_known :
    (mainLoop 2 ⟨"https://example.org/hook",
        rectangle (F64.ofInt 1) (F64.ofInt 0) (F64.ofInt 1) (F64.ofInt 0), "SEA"⟩
      [tickWithFlight, tickWithFlight] (fun _ => none)).map
        (fun seen => (seen "AAL100", seen "UAL7")) = .ok (some 1700000000, none) := by
  decide!

/-! ## Lemmas -/

namespace F64

theorem isNaN_eq_false_iff (x : F64) : x.isNaN = false ↔ x.mag ≤ infMag := by
  simp [isNaN]

theorem isFinite_iff (x : F64) : x.isFinite = true ↔ x.mag < infMag := by
  simp [isFinite]

theorem feq_iff (x y : F64) :
    feq x y = true ↔ x.mag ≤ infMag ∧ y.mag ≤ infMag ∧ x.key = y.key := by
  simp [feq, isNaN, and_assoc]

theorem flt_iff (x y : F64) :
    flt x y = true ↔ x.mag ≤ infMag ∧ y.mag ≤ infMag ∧ x.key < y.key := by
  simp [flt, isNaN, and_assoc]

theorem fgt_iff (x y : F64) :
    fgt x y = true ↔ x.mag ≤ infMag ∧ y.mag ≤ infMag ∧ y.key < x.key := by
  simp only [fgt, flt_iff]; tauto

theorem feq_false_iff (x y : F64) :
    feq x y = false ↔ ¬ (x.mag ≤ infMag ∧ y.mag ≤ infMag ∧ x.key = y.key) := by
  rw [← feq_iff]; simp

theorem flt_false_iff (x y : F64) :
    flt x y = false ↔ ¬ (x.mag ≤ infMag ∧ y.mag ≤ infMag ∧ x.key < y.key) := by
  rw [← flt_iff]; simp

theorem fgt_false_iff (x y : F64) :
    fgt x y = false ↔ ¬ (x.mag ≤ infMag ∧ y.mag ≤ infMag ∧ y.key < x.key) := by
  rw [← fgt_iff]; simp

theorem key_bounds (x : F64) : -(x.mag : Int) ≤ x.key ∧ x.key ≤ x.mag := by
  unfold key; split <;> omega

/-- One step of the perturbation: from any number other than positive infinity
the next value is a number one position higher. -/
theorem Nextafter_Inf_key (x : F64) (hx : x.mag ≤ infMag)
    (hinf : ¬ (x.neg = false ∧ x.mag = infMag)) :
    (Nextafter x (Inf 1)).mag ≤ infMag ∧ (Nextafter x (Inf 1)).key = x.key + 1 := by
  obtain ⟨n, m⟩ := x
  simp only at hx hinf
  have hI : Inf 1 = ⟨false, infMag⟩ := by simp [Inf]
  have hpos : 0 < infMag := by decide
  rw [hI]
  unfold Nextafter
  simp only [isNaN, feq, flt, fgt, key, zero]
  cases n
  · have hm : m < infMag := by
      rcases Nat.lt_or_ge m infMag with h | h
      · exact h
      · exact absurd ⟨rfl, by omega⟩ hinf
    by_cases h0 : m = 0
    · subst h0; simp [infMag]
    · have h1 : ¬ infMag < m := by omega
      have h2 : ¬ (m : Int) = infMag := by omega
      have h4 : 0 < m := by omega
      have h5 : ¬ (m = infMag) := by omega
      simp [h1, h2, h0, hm, h4, h5]
      omega
  · by_cases h0 : m = 0
    · subst h0; simp [infMag]
    · have h1 : ¬ infMag < m := by omega
      have h2 : ¬ (-(m : Int) = infMag) := by omega
      have h4 : 0 < m := by omega
      have h6 : -(m : Int) < infMag := by omega
      have h7 : ¬ ((m : Int) < 0) := by omega
      simp [h1, h2, h0, h4, h6, h7]
      omega

/-- A NaN is never the result of the step from a number. -/
theorem Nextafter_Inf_num (x : F64) (hx : x.mag ≤ infMag) :
    (Nextafter x (Inf 1)).mag ≤ infMag := by
  by_cases hinf : x.neg = false ∧ x.mag = infMag
  · obtain ⟨n, m⟩ := x
    obtain ⟨h1, h2⟩ := hinf
    simp only at h1 h2
    subst h1; subst h2
    simp [Nextafter, Inf, isNaN, feq, key]
  · exact (Nextafter_Inf_key x hx hinf).1

end F64

theorem perturb_comm (s e : F64) (fuel : Nat) (p : F64) :
    perturb s e fuel p = perturb e s fuel p := by
  induction fuel generalizing p with
  | zero => simp only [perturb]; rw [Bool.or_comm]
  | succ n ih => simp only [perturb]; rw [Bool.or_comm, ih]

theorem perturb_of_ne (s e p : F64) (fuel : Nat) (h1 : F64.feq p s = false)
    (h2 : F64.feq p e = false) : perturb s e fuel p = .ok p := by
  cases fuel <;> simp [perturb, h1, h2]

theorem perturb_exit (s e : F64) (fuel : Nat) (p q : F64)
    (h : perturb s e fuel p = .ok q) : F64.feq q s = false ∧ F64.feq q e = false := by
  induction fuel generalizing p with
  | zero =>
    simp only [perturb] at h
    split at h
    · cases h
    · rename_i hc
      cases h
      simpa using hc
  | succ n ih =>
    simp only [perturb] at h
    split at h
    · exact ih _ h
    · rename_i hc
      cases h
      simpa using hc

theorem perturb_num (s e : F64) (fuel : Nat) (p q : F64) (hp : p.mag ≤ F64.infMag)
    (h : perturb s e fuel p = .ok q) : q.mag ≤ F64.infMag := by
  induction fuel generalizing p with
  | zero =>
    simp only [perturb] at h
    split at h
    · cases h
    · cases h; exact hp
  | succ n ih =>
    simp only [perturb] at h
    split at h
    · exact ih _ (F64.Nextafter_Inf_num p hp) h
    · cases h; exact hp

/-- A value equal to an endpoint that is not positive infinity is a number other
than positive infinity. -/
theorem feq_not_posInf (p s : F64) (hs : ¬ (s.neg = false ∧ s.mag = F64.infMag))
    (h : F64.feq p s = true) :
    p.mag ≤ F64.infMag ∧ ¬ (p.neg = false ∧ p.mag = F64.infMag) := by
  rw [F64.feq_iff] at h
  obtain ⟨h1, h2, h3⟩ := h
  refine ⟨h1, ?_⟩
  rintro ⟨hn, hm⟩
  obtain ⟨pn, pm⟩ := p
  obtain ⟨sn, sm⟩ := s
  simp only at hn hm h1 h2 hs
  subst hn; subst hm
  simp only [F64.key] at h3
  have hpos : 0 < F64.infMag := by decide
  cases sn
  · simp at h3 hs
    omega
  · simp at h3
    omega

/-- The loop started from any value, between endpoints neither of which is
positive infinity: it stops after at most two turns, each turn moving to a
strictly greater value. -/
theorem perturbTrace_spec (s e p : F64)
    (hs : ¬ (s.neg = false ∧ s.mag = F64.infMag))
    (he : ¬ (e.neg = false ∧ e.mag = F64.infMag)) :
    ∃ t q, perturbTrace s e 2 p = .ok t ∧ t.length ≤ 3 ∧ t.head? = some p ∧
      List.Chain' (fun a b => b = F64.Nextafter a (F64.Inf 1) ∧ F64.flt a b = true) t ∧
      t.getLast? = some q ∧ ∀ fuel, perturb s e (fuel + 2) p = .ok q := by
  by_cases c0 : (F64.feq p s || F64.feq p e) = true
  · -- first turn
    have hp : p.mag ≤ F64.infMag ∧ ¬ (p.neg = false ∧ p.mag = F64.infMag) := by
      rcases Bool.or_eq_true _ _ ▸ c0 with h | h
      · exact feq_not_posInf p s hs h
      · exact feq_not_posInf p e he h
    obtain ⟨hp1n, hp1k⟩ := F64.Nextafter_Inf_key p hp.1 hp.2
    have hlt1 : F64.flt p (F64.Nextafter p (F64.Inf 1)) = true := by
      rw [F64.flt_iff]; exact ⟨hp.1, hp1n, by omega⟩
    by_cases c1 : (F64.feq (F64.Nextafter p (F64.Inf 1)) s
        || F64.feq (F64.Nextafter p (F64.Inf 1)) e) = true
    · -- second turn
      have hp1 : (F64.Nextafter p (F64.Inf 1)).mag ≤ F64.infMag ∧
          ¬ ((F64.Nextafter p (F64.Inf 1)).neg = false ∧
            (F64.Nextafter p (F64.Inf 1)).mag = F64.infMag) := by
        rcases Bool.or_eq_true _ _ ▸ c1 with h | h
        · exact feq_not_posInf _ s hs h
        · exact feq_not_posInf _ e he h
      obtain ⟨hp2n, hp2k⟩ := F64.Nextafter_Inf_key _ hp1.1 hp1.2
      have hlt2 : F64.flt (F64.Nextafter p (F64.Inf 1))
          (F64.Nextafter (F64.Nextafter p (F64.Inf 1)) (F64.Inf 1)) = true := by
        rw [F64.flt_iff]; exact ⟨hp1.1, hp2n, by omega⟩
      have c2 : (F64.feq (F64.Nextafter (F64.Nextafter p (F64.Inf 1)) (F64.Inf 1)) s
          || F64.feq (F64.Nextafter (F64.Nextafter p (F64.Inf 1)) (F64.Inf 1)) e) = false := by
        rw [Bool.or_eq_true, F64.feq_iff, F64.feq_iff] at c0 c1
        rw [Bool.or_eq_false_iff, F64.feq_false_iff, F64.feq_false_iff]
        constructor <;> rintro ⟨_, _, h⟩ <;> omega
      refine ⟨[p, F64.Nextafter p (F64.Inf 1),
        F64.Nextafter (F64.Nextafter p (F64.Inf 1)) (F64.Inf 1)], _, ?_, ?_, ?_, ?_, rfl, ?_⟩
      · simp [perturbTrace, c0, c1, c2, Except.map]
      · simp
      · simp
      · simp [hlt1, hlt2]
      · intro fuel
        cases fuel <;> simp [perturb, c0, c1, c2]
    · simp only [Bool.not_eq_true] at c1
      refine ⟨[p, F64.Nextafter p (F64.Inf 1)], _, ?_, ?_, ?_, ?_, rfl, ?_⟩
      · simp [perturbTrace, c0, c1, Except.map]
      · simp
      · simp
      · simp [hlt1]
      · intro fuel
        simp [perturb, c0, c1]
  · simp only [Bool.not_eq_true] at c0
    refine ⟨[p], _, ?_, ?_, ?_, ?_, rfl, ?_⟩
    · simp [perturbTrace, c0]
    · simp
    · simp
    · simp
    · intro fuel
      simp [perturb, c0]

theorem crossing_out (pLat p sLat sLon eLat eLon : F64)
    (h : F64.flt p sLon = true ∨ F64.fgt p eLon = true) :
    crossing pLat p sLat sLon eLat eLon = false := by
  rcases h with h | h <;> simp [crossing, h]

theorem crossing_above (pLat p sLat sLon eLat eLon : F64)
    (h1 : F64.fgt sLat eLat = false) (h2 : F64.fgt pLat eLat = true) :
    crossing pLat p sLat sLon eLat eLon = false := by
  simp [crossing, h1, h2]

theorem crossing_below (pLat p sLat sLon eLat eLon : F64)
    (h1 : F64.fgt sLat eLat = false) (h2 : F64.fgt pLat eLat = false)
    (h3 : F64.flt pLat sLat = true) :
    crossing pLat p sLat sLon eLat eLon = !(F64.flt p sLon || F64.fgt p eLon) := by
  simp only [crossing, h1, h2, h3]
  cases (F64.flt p sLon || F64.fgt p eLon) <;> simp

/-- An edge whose endpoints have equal longitudes is never crossed by a value
that left the loop as a number. -/
theorem crossing_vertical (pLat q sLat sLon eLat eLon : F64) (hq : q.mag ≤ F64.infMag)
    (hse : F64.feq sLon eLon = true) (hx : F64.feq q sLon = false) :
    crossing pLat q sLat sLon eLat eLon = false := by
  apply crossing_out
  rw [F64.feq_iff] at hse
  rw [F64.feq_false_iff] at hx
  rw [F64.flt_iff, F64.fgt_iff]
  omega

theorem raycastIntersect_total (pLat pLon sLat sLon eLat eLon : F64)
    (hs : ¬ (sLon.neg = false ∧ sLon.mag = F64.infMag))
    (he : ¬ (eLon.neg = false ∧ eLon.mag = F64.infMag)) :
    ∃ b, ∀ fuel, raycastIntersect (fuel + 2) pLat pLon sLat sLon eLat eLon = .ok b := by
  by_cases c : F64.fgt sLon eLon = true
  · obtain ⟨_, q, _, _, _, _, _, hq⟩ := perturbTrace_spec eLon sLon pLon he hs
    exact ⟨_, fun fuel => by simp only [raycastIntersect, c, if_true, hq fuel]; rfl⟩
  · obtain ⟨_, q, _, _, _, _, _, hq⟩ := perturbTrace_spec sLon eLon pLon hs he
    exact ⟨_, fun fuel => by simp only [raycastIntersect, c, if_false, hq fuel]; rfl⟩

theorem isFinite_not_posInf (x : F64) (h : x.isFinite = true) :
    ¬ (x.neg = false ∧ x.mag = F64.infMag) := by
  rw [F64.isFinite_iff] at h
  omega

theorem index_of_length (xs : List F64) (h : 2 ≤ xs.length) :
    ∃ a b, index xs 0 = .ok a ∧ index xs 1 = .ok b := by
  match xs, h with
  | a :: b :: _, _ => exact ⟨a, b, by simp [index], by simp [index]⟩

theorem index_short (xs : List F64) (h : xs.length < 2) :
    index xs 1 = .error .indexOutOfRange := by
  match xs, h with
  | [], _ => rfl
  | [_], _ => rfl

theorem finiteCorner_spec (c : List F64) (h : finiteCorner c = true) :
    ∃ lat lon, index c 0 = .ok lat ∧ index c 1 = .ok lon ∧ lat.isFinite = true ∧
      lon.isFinite = true := by
  match c, h with
  | lat :: lon :: _, h =>
    simp only [finiteCorner, Bool.and_eq_true] at h
    exact ⟨lat, lon, by simp [index], by simp [index], h.1, h.2⟩

theorem InArea_ok (fuel : Nat) (area : Area) (aircraft : Aircraft)
    (airLat airLon ne0 ne1 nw0 nw1 se0 se1 sw0 sw1 : F64) (b1 b2 b3 b4 : Bool)
    (hLat : index aircraft.Location.Coordinates 1 = .ok airLat)
    (hLon : index aircraft.Location.Coordinates 0 = .ok airLon)
    (hNE0 : index area.NE 0 = .ok ne0) (hNE1 : index area.NE 1 = .ok ne1)
    (hNW0 : index area.NW 0 = .ok nw0) (hNW1 : index area.NW 1 = .ok nw1)
    (hSE0 : index area.SE 0 = .ok se0) (hSE1 : index area.SE 1 = .ok se1)
    (hSW0 : index area.SW 0 = .ok sw0) (hSW1 : index area.SW 1 = .ok sw1)
    (h1 : raycastIntersect fuel airLat airLon ne0 ne1 nw0 nw1 = .ok b1)
    (h2 : raycastIntersect fuel airLat airLon se0 se1 ne0 ne1 = .ok b2)
    (h3 : raycastIntersect fuel airLat airLon sw0 sw1 se0 se1 = .ok b3)
    (h4 : raycastIntersect fuel airLat airLon nw0 nw1 sw0 sw1 = .ok b4) :
    InArea fuel area aircraft = .ok (xor (xor (xor b1 b2) b3) b4) := by
  simp only [InArea, hLat, hLon, hNE0, hNE1, hNW0, hNW1, hSE0, hSE1, hSW0, hSW1, bind,
    Except.bind, h1, h2, h3, h4]
  cases b1 <;> cases b2 <;> cases b3 <;> cases b4 <;> rfl

/-- A position with fewer than two coordinates panics at the first read. -/
theorem InArea_short (fuel : Nat) (area : Area) (aircraft : Aircraft)
    (h : aircraft.Location.Coordinates.length < 2) :
    InArea fuel area aircraft = .error .indexOutOfRange := by
  simp only [InArea, index_short _ h, bind, Except.bind]

theorem InArea_total (area : Area) (aircraft : Aircraft) (h : area.isFinite = true)
    (hc : 2 ≤ aircraft.Location.Coordinates.length) :
    ∃ b, ∀ fuel, InArea (fuel + 2) area aircraft = .ok b := by
  simp only [Area.isFinite, Bool.and_eq_true] at h
  obtain ⟨⟨⟨hNW, hNE⟩, hSW⟩, hSE⟩ := h
  obtain ⟨nw0, nw1, iNW0, iNW1, _, fNW⟩ := finiteCorner_spec _ hNW
  obtain ⟨ne0, ne1, iNE0, iNE1, _, fNE⟩ := finiteCorner_spec _ hNE
  obtain ⟨sw0, sw1, iSW0, iSW1, _, fSW⟩ := finiteCorner_spec _ hSW
  obtain ⟨se0, se1, iSE0, iSE1, _, fSE⟩ := finiteCorner_spec _ hSE
  obtain ⟨airLon, airLat, iLon, iLat⟩ := index_of_length _ hc
  have nNW := isFinite_not_posInf _ fNW
  have nNE := isFinite_not_posInf _ fNE
  have nSW := isFinite_not_posInf _ fSW
  have nSE := isFinite_not_posInf _ fSE
  obtain ⟨b1, h1⟩ := raycastIntersect_total airLat airLon ne0 ne1 nw0 nw1 nNE nNW
  obtain ⟨b2, h2⟩ := raycastIntersect_total airLat airLon se0 se1 ne0 ne1 nSE nNE
  obtain ⟨b3, h3⟩ := raycastIntersect_total airLat airLon sw0 sw1 se0 se1 nSW nSE
  obtain ⟨b4, h4⟩ := raycastIntersect_total airLat airLon nw0 nw1 sw0 sw1 nNW nSW
  exact ⟨_, fun fuel => InArea_ok _ area aircraft airLat airLon ne0 ne1 nw0 nw1 se0 se1 sw0
    sw1 b1 b2 b3 b4 iLat iLon iNE0 iNE1 iNW0 iNW1 iSE0 iSE1 iSW0 iSW1 (h1 fuel) (h2 fuel)
    (h3 fuel) (h4 fuel)⟩

theorem boundingBox_total (area : Area) (h : area.isFinite = true) :
    ∃ box, boundingBox area = .ok box := by
  simp only [Area.isFinite, Bool.and_eq_true] at h
  obtain ⟨⟨⟨hNW, hNE⟩, hSW⟩, hSE⟩ := h
  obtain ⟨nw0, nw1, iNW0, iNW1, _, _⟩ := finiteCorner_spec _ hNW
  obtain ⟨ne0, ne1, iNE0, iNE1, _, _⟩ := finiteCorner_spec _ hNE
  obtain ⟨sw0, sw1, iSW0, iSW1, _, _⟩ := finiteCorner_spec _ hSW
  obtain ⟨se0, se1, iSE0, iSE1, _, _⟩ := finiteCorner_spec _ hSE
  refine ⟨(F64.Max nw0 ne0, F64.Min sw0 se0, F64.Max se1 ne1, F64.Max nw1 sw1), ?_⟩
  simp only [boundingBox, iNW0, iNW1, iNE0, iNE1, iSW0, iSW1, iSE0, iSE1, bind, Except.bind]
  rfl

theorem crossing_above_falling (pLat p sLat sLon eLat eLon : F64)
    (h1 : F64.fgt sLat eLat = true) (h2 : F64.fgt pLat sLat = true) :
    crossing pLat p sLat sLon eLat eLon = false := by
  simp [crossing, h1, h2]

theorem crossing_below_falling (pLat p sLat sLon eLat eLon : F64)
    (h1 : F64.fgt sLat eLat = true) (h2 : F64.fgt pLat sLat = false)
    (h3 : F64.flt pLat eLat = true) :
    crossing pLat p sLat sLon eLat eLon = !(F64.flt p sLon || F64.fgt p eLon) := by
  simp only [crossing, h1, h2, h3]
  cases (F64.flt p sLon || F64.fgt p eLon) <;> simp

theorem raycastIntersect_swap (fuel : Nat) (pLat pLon sLat sLon eLat eLon q : F64)
    (h : F64.fgt sLon eLon = true) (hq : perturb eLon sLon fuel pLon = .ok q) :
    raycastIntersect fuel pLat pLon sLat sLon eLat eLon =
      .ok (crossing pLat q eLat eLon sLat sLon) := by
  simp only [raycastIntersect, h, if_true, hq]; rfl

theorem raycastIntersect_noswap (fuel : Nat) (pLat pLon sLat sLon eLat eLon q : F64)
    (h : F64.fgt sLon eLon = false) (hq : perturb sLon eLon fuel pLon = .ok q) :
    raycastIntersect fuel pLat pLon sLat sLon eLat eLon =
      .ok (crossing pLat q sLat sLon eLat eLon) := by
  simp only [raycastIntersect, h, hq]; rfl

/-- The four edge tests of a rectangle in terms of the values the loop returns:
the two horizontal edges share one run of the loop. -/
theorem InArea_rectangle_eq (fuel : Nat) (N S E W lat lon q qE qW : F64)
    (props : AircraftProperties) (hWE : F64.flt W E = true)
    (pWE : perturb W E fuel lon = .ok q) (pEE : perturb E E fuel lon = .ok qE)
    (pWW : perturb W W fuel lon = .ok qW) :
    InArea fuel (rectangle N S E W) (aircraftAt lat lon props) =
      .ok (xor (xor (xor (crossing lat q N W N E) (crossing lat qE S E N E))
        (crossing lat q S W S E)) (crossing lat qW N W S W)) := by
  have k := (F64.flt_iff W E).1 hWE
  have f1 : F64.fgt E W = true := by rw [F64.fgt_iff]; omega
  have f2 : F64.fgt E E = false := by rw [F64.fgt_false_iff]; omega
  have f3 : F64.fgt W E = false := by rw [F64.fgt_false_iff]; omega
  have f4 : F64.fgt W W = false := by rw [F64.fgt_false_iff]; omega
  exact InArea_ok fuel (rectangle N S E W) (aircraftAt lat lon props) lat lon N E N W S E S W
    _ _ _ _ rfl rfl rfl rfl rfl rfl rfl rfl rfl rfl
    (raycastIntersect_swap fuel lat lon N E N W q f1 pWE)
    (raycastIntersect_noswap fuel lat lon S E N E qE f2 pEE)
    (raycastIntersect_noswap fuel lat lon S W S E q f3 pWE)
    (raycastIntersect_noswap fuel lat lon N W S W qW f4 pWW)

theorem InArea_rectangle_inside (fuel : Nat) (N S E W lat lon : F64)
    (props : AircraftProperties)
    (h1 : F64.flt S lat = true) (h2 : F64.flt lat N = true)
    (h3 : F64.flt W lon = true) (h4 : F64.flt lon E = true) :
    InArea fuel (rectangle N S E W) (aircraftAt lat lon props) = .ok true := by
  have k1 := (F64.flt_iff _ _).1 h1
  have k2 := (F64.flt_iff _ _).1 h2
  have k3 := (F64.flt_iff _ _).1 h3
  have k4 := (F64.flt_iff _ _).1 h4
  have hWE : F64.flt W E = true := by rw [F64.flt_iff]; omega
  have e1 : F64.feq lon W = false := by rw [F64.feq_false_iff]; omega
  have e2 : F64.feq lon E = false := by rw [F64.feq_false_iff]; omega
  rw [InArea_rectangle_eq fuel N S E W lat lon lon lon lon props hWE
    (perturb_of_ne _ _ _ _ e1 e2) (perturb_of_ne _ _ _ _ e2 e2) (perturb_of_ne _ _ _ _ e1 e1)]
  have g1 : F64.fgt N N = false := by rw [F64.fgt_false_iff]; omega
  have g2 : F64.fgt lat N = false := by rw [F64.fgt_false_iff]; omega
  have g3 : F64.fgt S S = false := by rw [F64.fgt_false_iff]; omega
  have g4 : F64.fgt lat S = true := by rw [F64.fgt_iff]; omega
  have g5 : F64.flt lon W = false := by rw [F64.flt_false_iff]; omega
  have g6 : F64.fgt lon E = false := by rw [F64.fgt_false_iff]; omega
  have g7 : F64.fgt lon W = true := by rw [F64.fgt_iff]; omega
  rw [crossing_below lat lon N W N E g1 g2 h2, crossing_out lat lon S E N E (Or.inl h4),
    crossing_above lat lon S W S E g3 g4, crossing_out lat lon N W S W (Or.inr g7), g5, g6]
  rfl

theorem InArea_rectangle_outside (fuel : Nat) (N S E W lat lon : F64)
    (props : AircraftProperties) (hSN : F64.flt S N = true) (hWE : F64.flt W E = true)
    (hE : E.isFinite = true)
    (h : F64.flt lat S = true ∨ F64.fgt lat N = true ∨ F64.flt lon W = true ∨
      F64.fgt lon E = true) :
    InArea (fuel + 2) (rectangle N S E W) (aircraftAt lat lon props) = .ok false := by
  have kSN := (F64.flt_iff _ _).1 hSN
  have kWE := (F64.flt_iff _ _).1 hWE
  have nE := isFinite_not_posInf E hE
  have nW : ¬ (W.neg = false ∧ W.mag = F64.infMag) := by
    rintro ⟨hn, hm⟩
    have := F64.key_bounds E
    have hk : W.key = F64.infMag := by simp [F64.key, hn, hm]
    omega
  by_cases cW : F64.flt lon W = true
  · -- west of the rectangle
    have k := (F64.flt_iff _ _).1 cW
    have e1 : F64.feq lon W = false := by rw [F64.feq_false_iff]; omega
    have e2 : F64.feq lon E = false := by rw [F64.feq_false_iff]; omega
    have g : F64.flt lon E = true := by rw [F64.flt_iff]; omega
    rw [InArea_rectangle_eq _ N S E W lat lon lon lon lon props hWE
      (perturb_of_ne _ _ _ _ e1 e2) (perturb_of_ne _ _ _ _ e2 e2) (perturb_of_ne _ _ _ _ e1 e1),
      crossing_out lat lon N W N E (Or.inl cW), crossing_out lat lon S E N E (Or.inl g),
      crossing_out lat lon S W S E (Or.inl cW), crossing_out lat lon N W S W (Or.inl cW)]
    rfl
  by_cases cE : F64.fgt lon E = true
  · -- east of the rectangle
    have k := (F64.fgt_iff _ _).1 cE
    have e1 : F64.feq lon W = false := by rw [F64.feq_false_iff]; omega
    have e2 : F64.feq lon E = false := by rw [F64.feq_false_iff]; omega
    have g : F64.fgt lon W = true := by rw [F64.fgt_iff]; omega
    rw [InArea_rectangle_eq _ N S E W lat lon lon lon lon props hWE
      (perturb_of_ne _ _ _ _ e1 e2) (perturb_of_ne _ _ _ _ e2 e2) (perturb_of_ne _ _ _ _ e1 e1),
      crossing_out lat lon N W N E (Or.inr cE), crossing_out lat lon S E N E (Or.inr cE),
      crossing_out lat lon S W S E (Or.inr cE), crossing_out lat lon N W S W (Or.inr g)]
    rfl
  have hlat : F64.flt lat S = true ∨ F64.fgt lat N = true := by
    rcases h with h | h | h | h
    · exact Or.inl h
    · exact Or.inr h
    · exact absurd h cW
    · exact absurd h cE
  have g1 : F64.fgt N N = false := by rw [F64.fgt_false_iff]; omega
  have g3 : F64.fgt S S = false := by rw [F64.fgt_false_iff]; omega
  have g5 : F64.fgt S N = false := by rw [F64.fgt_false_iff]; omega
  have g6 : F64.fgt N S = true := by rw [F64.fgt_iff]; omega
  by_cases cN : lon.mag ≤ F64.infMag
  · -- the longitude is a number: the loop ends on a number off both endpoints
    obtain ⟨_, q, _, _, _, _, _, pWE⟩ := perturbTrace_spec W E lon nW nE
    obtain ⟨_, qE, _, _, _, _, _, pEE⟩ := perturbTrace_spec E E lon nE nE
    obtain ⟨_, qW, _, _, _, _, _, pWW⟩ := perturbTrace_spec W W lon nW nW
    have xE := (perturb_exit _ _ _ _ _ (pEE fuel)).1
    have xW := (perturb_exit _ _ _ _ _ (pWW fuel)).1
    have nqE := perturb_num _ _ _ _ _ cN (pEE fuel)
    have nqW := perturb_num _ _ _ _ _ cN (pWW fuel)
    have hEE : F64.feq E E = true := by rw [F64.feq_iff]; omega
    have hWW : F64.feq W W = true := by rw [F64.feq_iff]; omega
    rw [InArea_rectangle_eq _ N S E W lat lon q qE qW props hWE (pWE fuel) (pEE fuel)
      (pWW fuel), crossing_vertical lat qE S E N E nqE hEE xE,
      crossing_vertical lat qW N W S W nqW hWW xW]
    rcases hlat with hS | hN
    · have k := (F64.flt_iff _ _).1 hS
      have a1 : F64.fgt lat N = false := by rw [F64.fgt_false_iff]; omega
      have a2 : F64.flt lat N = true := by rw [F64.flt_iff]; omega
      have a3 : F64.fgt lat S = false := by rw [F64.fgt_false_iff]; omega
      rw [crossing_below lat q N W N E g1 a1 a2, crossing_below lat q S W S E g3 a3 hS]
      cases (F64.flt q W || F64.fgt q E) <;> rfl
    · have k := (F64.fgt_iff _ _).1 hN
      have a1 : F64.fgt lat S = true := by rw [F64.fgt_iff]; omega
      rw [crossing_above lat q N W N E g1 hN, crossing_above lat q S W S E g3 a1]
      rfl
  · -- the longitude is a NaN: the loop does not run and no range test fires
    have e1 : F64.feq lon W = false := by rw [F64.feq_false_iff]; omega
    have e2 : F64.feq lon E = false := by rw [F64.feq_false_iff]; omega
    have o1 : F64.flt lon W = false := by rw [F64.flt_false_iff]; omega
    have o2 : F64.fgt lon E = false := by rw [F64.fgt_false_iff]; omega
    have o3 : F64.flt lon E = false := by rw [F64.flt_false_iff]; omega
    have o4 : F64.fgt lon W = false := by rw [F64.fgt_false_iff]; omega
    rw [InArea_rectangle_eq _ N S E W lat lon lon lon lon props hWE
      (perturb_of_ne _ _ _ _ e1 e2) (perturb_of_ne _ _ _ _ e2 e2) (perturb_of_ne _ _ _ _ e1 e1)]
    rcases hlat with hS | hN
    · have k := (F64.flt_iff _ _).1 hS
      have a1 : F64.fgt lat N = false := by rw [F64.fgt_false_iff]; omega
      have a2 : F64.flt lat N = true := by rw [F64.flt_iff]; omega
      have a3 : F64.fgt lat S = false := by rw [F64.fgt_false_iff]; omega
      rw [crossing_below lat lon N W N E g1 a1 a2, crossing_below lat lon S E N E g5 a1 hS,
        crossing_below lat lon S W S E g3 a3 hS,
        crossing_below_falling lat lon N W S W g6 a1 hS, o1, o2, o3, o4]
      rfl
    · have k := (F64.fgt_iff _ _).1 hN
      have a1 : F64.fgt lat S = true := by rw [F64.fgt_iff]; omega
      rw [crossing_above lat lon N W N E g1 hN, crossing_above lat lon S E N E g5 hN,
        crossing_above lat lon S W S E g3 a1, crossing_above_falling lat lon N W S W g6 hN]
      rfl

theorem raycastIntersect_symm (fuel : Nat) (pLat pLon sLat sLon eLat eLon : F64)
    (hp : pLon.isNaN = false) (hs : sLon.isNaN = false) (he : eLon.isNaN = false) :
    raycastIntersect fuel pLat pLon sLat sLon eLat eLon =
      raycastIntersect fuel pLat pLon eLat eLon sLat sLon := by
  rw [F64.isNaN_eq_false_iff] at hp hs he
  by_cases c1 : F64.fgt sLon eLon = true
  · have c2 : F64.fgt eLon sLon = false := by
      rw [F64.fgt_iff] at c1; rw [F64.fgt_false_iff]; omega
    simp only [raycastIntersect, c1, c2, if_true]
    rfl
  · simp only [Bool.not_eq_true] at c1
    by_cases c2 : F64.fgt eLon sLon = true
    · simp only [raycastIntersect, c1, c2, if_true]
      rfl
    · simp only [Bool.not_eq_true] at c2
      have hse : F64.feq sLon eLon = true := by
        rw [F64.fgt_false_iff] at c1 c2; rw [F64.feq_iff]; omega
      have hes : F64.feq eLon sLon = true := by
        rw [F64.fgt_false_iff] at c1 c2; rw [F64.feq_iff]; omega
      simp only [raycastIntersect, c1, c2]
      rw [perturb_comm eLon sLon]
      cases hq : perturb sLon eLon fuel pLon with
      | error f => rfl
      | ok q =>
        have hx := perturb_exit _ _ _ _ _ hq
        have hn := perturb_num _ _ _ _ _ hp hq
        show Except.ok (crossing pLat q sLat sLon eLat eLon) =
          Except.ok (crossing pLat q eLat eLon sLat sLon)
        rw [crossing_vertical pLat q sLat sLon eLat eLon hn hse hx.1,
          crossing_vertical pLat q eLat eLon sLat sLon hn hes hx.2]

theorem watchLoop_eq_filter (fuel : Nat) (area : Area) (h : area.isFinite = true)
    (aircraft inArea : List Aircraft)
    (hc : ∀ a ∈ aircraft,
      a.Properties.FlightType = "airline" ∨ a.Properties.FlightType = "cargo" →
      2 ≤ a.Location.Coordinates.length) :
    watchLoop (fuel + 2) area aircraft inArea =
      .ok (inArea ++ aircraft.filter (kept (fuel + 2) area)) := by
  induction aircraft generalizing inArea with
  | nil => simp [watchLoop]
  | cons a rest ih =>
    have ih2 := fun inArea => ih inArea (fun x hx => hc x (List.mem_cons_of_mem _ hx))
    by_cases c : a.Properties.FlightType = "airline" ∨ a.Properties.FlightType = "cargo"
    · obtain ⟨b, hb⟩ := InArea_total area a h (hc a (List.mem_cons_self _ _) c)
      simp only [watchLoop, hb fuel, List.filter_cons, kept]
      cases b
      · rcases c with c | c <;> simp [c, ih2]
      · rcases c with c | c <;> simp [c, ih2]
    · have c1 : ¬ a.Properties.FlightType = "airline" := fun e => c (Or.inl e)
      have c2 : ¬ a.Properties.FlightType = "cargo" := fun e => c (Or.inr e)
      simp only [watchLoop, List.filter_cons, kept]
      simp [c1, c2, ih2]

/-- An airline or cargo aircraft with fewer than two coordinates anywhere in the
fetched list makes the loop panic. -/
theorem watchLoop_short (fuel : Nat) (area : Area) (h : area.isFinite = true)
    (aircraft inArea : List Aircraft)
    (hs : ∃ a ∈ aircraft,
      (a.Properties.FlightType = "airline" ∨ a.Properties.FlightType = "cargo") ∧
      a.Location.Coordinates.length < 2) :
    watchLoop (fuel + 2) area aircraft inArea = .error .indexOutOfRange := by
  induction aircraft generalizing inArea with
  | nil =>
    obtain ⟨a, ha, _⟩ := hs
    cases ha
  | cons a rest ih =>
    by_cases c : a.Properties.FlightType = "airline" ∨ a.Properties.FlightType = "cargo"
    · by_cases l : a.Location.Coordinates.length < 2
      · simp only [watchLoop, c, if_true, InArea_short _ area a l]
      · have hrest : ∃ x ∈ rest,
            (x.Properties.FlightType = "airline" ∨ x.Properties.FlightType = "cargo") ∧
            x.Location.Coordinates.length < 2 := by
          obtain ⟨x, hx, hx2⟩ := hs
          rcases List.mem_cons.1 hx with rfl | hx
          · exact absurd hx2.2 l
          · exact ⟨x, hx, hx2⟩
        obtain ⟨b, hb⟩ := InArea_total area a h (by omega)
        simp only [watchLoop, c, if_true, hb fuel]
        cases b
        · exact ih _ hrest
        · exact ih _ hrest
    · have hrest : ∃ x ∈ rest,
          (x.Properties.FlightType = "airline" ∨ x.Properties.FlightType = "cargo") ∧
          x.Location.Coordinates.length < 2 := by
        obtain ⟨x, hx, hx2⟩ := hs
        rcases List.mem_cons.1 hx with rfl | hx
        · exact absurd hx2.1 c
        · exact ⟨x, hx, hx2⟩
      simp only [watchLoop, c, if_false]
      exact ih _ hrest

theorem wrap64_id (z : Int) (h1 : -2 ^ 63 ≤ z) (h2 : z < 2 ^ 63) : wrap64 z = z := by
  unfold wrap64
  omega

theorem sighting_flag (seen : Seen) (id : String) (now : Int)
    (hr : ∀ t, seen id = some t → -2 ^ 63 ≤ t + 7200 ∧ t + 7200 < 2 ^ 63) :
    (sighting seen id now).1 = true ↔
      (seen id = none ∨ ∃ t, seen id = some t ∧ 7200 ≤ now - t) := by
  unfold sighting
  cases hs : seen id with
  | none => simp
  | some val =>
    obtain ⟨h1, h2⟩ := hr val hs
    have hw : wrap64 (val + 7200) = val + 7200 := wrap64_id _ (by omega) h2
    simp only [hw]
    split
    · simp; omega
    · simp; omega

theorem sighting_frame (seen : Seen) (id : String) (now : Int) :
    ((sighting seen id now).1 = true →
      (sighting seen id now).2 id = some now ∧
      ∀ other, other ≠ id → (sighting seen id now).2 other = seen other) ∧
    ((sighting seen id now).1 = false → (sighting seen id now).2 = seen) := by
  unfold sighting
  cases hs : seen id with
  | none => simp +contextual
  | some val =>
    simp only
    split
    · simp
    · simp +contextual

theorem sighting_flag_congr (s1 s2 : Seen) (id : String) (now : Int) (h : s1 id = s2 id) :
    (sighting s1 id now).1 = (sighting s2 id now).1 := by
  unfold sighting
  rw [h]
  cases s2 id with
  | none => rfl
  | some val =>
    simp only
    split <;> rfl

theorem sighting_other (seen : Seen) (a b : String) (nowa nowb : Int) (hab : a ≠ b) :
    (sighting (sighting seen b nowb).2 a nowa).1 = (sighting seen a nowa).1 := by
  apply sighting_flag_congr
  by_cases c : (sighting seen b nowb).1 = true
  · exact ((sighting_frame seen b nowb).1 c).2 a hab
  · simp only [Bool.not_eq_true] at c
    rw [(sighting_frame seen b nowb).2 c]

theorem sightings_seen (l : List (String × Int)) (seen : Seen) (id : String) :
    (sightings seen l).2 id = (lastPost id (posted seen l)).or (seen id) := by
  induction l generalizing seen with
  | nil => simp [sightings, posted, lastPost]
  | cons s rest ih =>
    obtain ⟨i, now⟩ := s
    simp only [sightings, posted]
    rw [ih]
    by_cases c : (sighting seen i now).1 = true
    · have hf := (sighting_frame seen i now).1 c
      simp only [c, if_true, lastPost]
      cases lastPost id (posted (sighting seen i now).2 rest) with
      | some u => simp
      | none =>
        by_cases e : i = id
        · subst e; simp [hf.1]
        · have e2 : id ≠ i := fun h => e h.symm
          simp [e, hf.2 id e2]
    · simp only [Bool.not_eq_true] at c
      have hf := (sighting_frame seen i now).2 c
      simp [c, hf]

theorem posted_spaced (l : List (String × Int)) (seen : Seen)
    (hseen : ∀ id t, seen id = some t →
      (-2 ^ 63 ≤ t + 7200 ∧ t + 7200 < 2 ^ 63) ∧ ∀ s ∈ l, t ≤ s.2)
    (hmono : l.Pairwise (fun a b => a.2 ≤ b.2))
    (hr : ∀ s ∈ l, -2 ^ 63 ≤ s.2 + 7200 ∧ s.2 + 7200 < 2 ^ 63) :
    (posted seen l).Pairwise (fun a b => a.1 = b.1 → a.2 + 7200 ≤ b.2) ∧
    ∀ x ∈ posted seen l, ∀ t, seen x.1 = some t → t + 7200 ≤ x.2 := by
  induction l generalizing seen with
  | nil => simp [posted]
  | cons s rest ih =>
    obtain ⟨i, now⟩ := s
    rw [List.pairwise_cons] at hmono
    obtain ⟨hhead, hmono⟩ := hmono
    have hrnow := hr (i, now) (List.mem_cons_self _ _)
    have hr2 : ∀ s ∈ rest, -2 ^ 63 ≤ s.2 + 7200 ∧ s.2 + 7200 < 2 ^ 63 :=
      fun s hs => hr s (List.mem_cons_of_mem _ hs)
    by_cases c : (sighting seen i now).1 = true
    · have hf := (sighting_frame seen i now).1 c
      have hacc : ∀ t, seen i = some t → t + 7200 ≤ now := by
        intro t ht
        have := (sighting_flag seen i now (fun t h => (hseen i t h).1)).1 c
        rcases this with h | ⟨t2, h, h2⟩
        · rw [h] at ht; cases ht
        · rw [h] at ht; cases ht; omega
      have hs2 : ∀ id t, (sighting seen i now).2 id = some t →
          (-2 ^ 63 ≤ t + 7200 ∧ t + 7200 < 2 ^ 63) ∧ ∀ s ∈ rest, t ≤ s.2 := by
        intro id t ht
        by_cases e : id = i
        · subst e
          rw [hf.1] at ht
          cases ht
          exact ⟨hrnow, hhead⟩
        · rw [hf.2 id e] at ht
          exact ⟨(hseen id t ht).1, fun s hs => (hseen id t ht).2 s (List.mem_cons_of_mem _ hs)⟩
      obtain ⟨p1, p2⟩ := ih (sighting seen i now).2 hs2 hmono hr2
      simp only [posted, c, if_true]
      refine ⟨List.pairwise_cons.2 ⟨?_, p1⟩, ?_⟩
      · intro x hx hix
        exact p2 x hx now (by rw [← hix]; exact hf.1)
      · intro x hx t ht
        rcases List.mem_cons.1 hx with rfl | hx
        · exact hacc t ht
        · by_cases e : x.1 = i
          · have h1 := hacc t (by rw [← e]; exact ht)
            have h2 := p2 x hx now (by rw [e]; exact hf.1)
            omega
          · exact p2 x hx t (by rw [hf.2 x.1 e]; exact ht)
    · simp only [Bool.not_eq_true] at c
      have hf := (sighting_frame seen i now).2 c
      simp only [posted, c]
      rw [hf]
      exact ih seen (fun id t ht => ⟨(hseen id t ht).1,
        fun s hs => (hseen id t ht).2 s (List.mem_cons_of_mem _ hs)⟩) hmono hr2

/-- While every post gets its response, the inner loop of `main` leaves the map
that the run of its sightings leaves. -/
theorem notifyLoop_eq_sightings (t : Tick) (webhook : String)
    (hpost : ∀ a, t.postToWebhook a webhook = true) (aircraftAbove : List Aircraft) (k : Nat)
    (seen : Seen) :
    notifyLoop t webhook aircraftAbove k seen
      = .ok (sightings seen (stamped t.now k aircraftAbove)).2 := by
  induction aircraftAbove generalizing k seen with
  | nil => rfl
  | cons a rest ih =>
    simp only [notifyLoop, stamped, sightings]
    cases hs : sighting seen a.Properties.FlightNumber (t.now k) with
    | mk flag seen1 =>
      cases flag
      · have hf := (sighting_frame seen a.Properties.FlightNumber (t.now k)).2
          (by rw [hs])
        rw [hs] at hf
        simp only at hf
        simp only [ih, hf]
      · simp only [hpost a, if_true, ih]

/-! ## The claims -/

theorem posted_eq_accepted (l : List (String × Int)) (seen : Seen) :
    posted seen l = ((l.zip (sightings seen l).1).filter (fun x => x.2)).map (fun x => x.1) := by
  induction l generalizing seen with
  | nil => rfl
  | cons s rest ih =>
    obtain ⟨i, now⟩ := s
    simp only [posted, sightings, List.zip_cons_cons, List.filter_cons]
    by_cases c : (sighting seen i now).1 = true
    · simp [c, ih]
    · simp only [Bool.not_eq_true] at c
      simp [c, ih]

/-- C1: an axis-aligned rectangle with S below N and W west of E.  A position
strictly between the four bounds is reported inside, with any fuel.  A position
strictly beyond one of the bounds is reported outside, the loop needing at most
two turns; this half is stated for a finite east longitude, the value the loop
must be able to step past.  In particular the unit square reports (1/2, 1/2)
inside and (2, 2) outside. -/
theorem InArea_rectangle (N S E W lat lon : F64) (props : AircraftProperties)
    (hSN : F64.flt S N = true) (hWE : F64.flt W E = true) :
    (F64.flt S lat = true ∧ F64.flt lat N = true ∧ F64.flt W lon = true ∧
        F64.flt lon E = true →
      ∀ fuel, InArea fuel (rectangle N S E W) (aircraftAt lat lon props) = .ok true) ∧
    (E.isFinite = true →
      F64.flt lat S = true ∨ F64.fgt lat N = true ∨ F64.flt lon W = true ∨
        F64.fgt lon E = true →
      ∀ fuel, 2 ≤ fuel →
        InArea fuel (rectangle N S E W) (aircraftAt lat lon props) = .ok false) ∧
    InArea 2 (rectangle (F64.ofInt 1) (F64.ofInt 0) (F64.ofInt 1) (F64.ofInt 0))
      (aircraftAt (F64.ofRat 1 2) (F64.ofRat 1 2) props) = .ok true ∧
    InArea 2 (rectangle (F64.ofInt 1) (F64.ofInt 0) (F64.ofInt 1) (F64.ofInt 0))
      (aircraftAt (F64.ofInt 2) (F64.ofInt 2) props) = .ok false := by
  refine ⟨?_, ?_, ?_, ?_⟩
  · rintro ⟨h1, h2, h3, h4⟩ fuel
    exact InArea_rectangle_inside fuel N S E W lat lon props h1 h2 h3 h4
  · intro hE h fuel hfuel
    obtain ⟨k, rfl⟩ : ∃ k, fuel = k + 2 := ⟨fuel - 2, by omega⟩
    exact InArea_rectangle_outside k N S E W lat lon props hSN hWE hE h
  · exact InArea_rectangle_inside 2 _ _ _ _ _ _ props (by decide!) (by decide!) (by decide!)
      (by decide!)
  · exact InArea_rectangle_outside 0 _ _ _ _ _ _ props (by decide!) (by decide!) (by decide!)
      (Or.inr (Or.inl (by decide!)))

theorem InArea_rectangle_witness :
    F64.flt (F64.ofInt 0) (F64.ofInt 1) = true ∧
    InArea 2 (rectangle (F64.ofInt 1) (F64.ofInt 0) (F64.ofInt 1) (F64.ofInt 0))
      (aircraftAt (F64.ofRat 1 2) (F64.ofRat 1 2) sampleProps) = .ok true ∧
    InArea 2 (rectangle (F64.ofInt 1) (F64.ofInt 0) (F64.ofInt 1) (F64.ofInt 0))
      (aircraftAt (F64.ofRat 1 2) (F64.ofInt (-3)) sampleProps) = .ok false :=
  ⟨by decide!,
   (InArea_rectangle (F64.ofInt 1) (F64.ofInt 0) (F64.ofInt 1) (F64.ofInt 0) (F64.ofRat 1 2)
      (F64.ofRat 1 2) sampleProps (by decide!) (by decide!)).1
      ⟨by decide!, by decide!, by decide!, by decide!⟩ 2,
   (InArea_rectangle (F64.ofInt 1) (F64.ofInt 0) (F64.ofInt 1) (F64.ofInt 0) (F64.ofRat 1 2)
      (F64.ofInt (-3)) sampleProps (by decide!) (by decide!)).2.1 (by decide!)
      (Or.inr (Or.inr (Or.inl (by decide!)))) 2 (by decide)⟩

/-- C2: on the convex area NW = (4, 0), NE = (3, 4), SE = (0, 4), SW = (0, 0) the
position at latitude 4 and longitude 2 lies strictly outside, above the falling
north edge, yet `InArea` answers true: the latitude equals that of the west end
of the edge, the slope of the ray is a division by zero giving positive
infinity, and the comparison with the negative slope of the edge succeeds. -/
theorem InArea_true_above_falling_edge :
    fallingNorthEdge.convex = true ∧
    fallingNorthEdge.strictlyOutside (F64.ofInt 4) (F64.ofInt 2) = true ∧
    F64.div (F64.sub (F64.ofInt 2) (F64.ofInt 0)) (F64.sub (F64.ofInt 4) (F64.ofInt 4))
      = F64.Inf 1 ∧
    F64.div (F64.sub (F64.ofInt 4) (F64.ofInt 0)) (F64.sub (F64.ofInt 3) (F64.ofInt 4))
      = F64.ofInt (-4) ∧
    InArea 2 fallingNorthEdge (aircraftAt (F64.ofInt 4) (F64.ofInt 2) sampleProps)
      = .ok true := by
  decide!

/-- C3: the check posts exactly when `id` has no entry or at least 7200 seconds
have passed since the stored time `t`; 7200 seconds posts, 7199 does not; and
AAL100 seen at 0, 100 and 7201 from an empty map gives true, false, true.  The
sum `t + 7200` the check computes is taken within `int64`, as it is for every
Unix time the clock gives. -/
theorem cooldown_check (seen : Seen) (id : String) (now : Int)
    (hr : ∀ t, seen id = some t → -2 ^ 63 ≤ t + 7200 ∧ t + 7200 < 2 ^ 63) :
    ((sighting seen id now).1 = true ↔
      (seen id = none ∨ ∃ t, seen id = some t ∧ 7200 ≤ now - t)) ∧
    (∀ t, seen id = some t →
      (sighting seen id (t + 7200)).1 = true ∧ (sighting seen id (t + 7199)).1 = false) ∧
    (sightings (fun _ => none) [("AAL100", 0), ("AAL100", 100), ("AAL100", 7201)]).1
      = [true, false, true] := by
  refine ⟨sighting_flag seen id now hr, ?_, by decide⟩
  intro t ht
  constructor
  · rw [sighting_flag seen id _ hr]
    exact Or.inr ⟨t, ht, by omega⟩
  · cases h : (sighting seen id (t + 7199)).1 with
    | false => rfl
    | true =>
      rw [sighting_flag seen id _ hr] at h
      rcases h with h | ⟨t2, h, h2⟩
      · rw [h] at ht; cases ht
      · rw [h] at ht; cases ht; omega

theorem cooldown_check_witness :
    (sighting (fun k => if k = "AAL100" then some 1700000000 else none) "AAL100"
      1700007200).1 = true ∧
    (sighting (fun k => if k = "AAL100" then some 1700000000 else none) "AAL100"
      1700007199).1 = false :=
  ⟨(cooldown_check (fun k => if k = "AAL100" then some 1700000000 else none) "AAL100"
      1700007200 (by intro t h; simp at h; omega)).1.2
      (Or.inr ⟨1700000000, by simp, by omega⟩),
   ((cooldown_check (fun k => if k = "AAL100" then some 1700000000 else none) "AAL100" 0
      (by intro t h; simp at h; omega)).2.1 1700000000 (by simp)).2⟩

/-- C4: a sighting that posts leaves a map holding `now` for its own flight
number and the old entry for every other one; a suppressed sighting leaves the
map as it was; so a sighting of `b` never changes whether a later sighting of a
different `a` posts. -/
theorem sighting_record_frame (seen : Seen) (id : String) (now : Int) :
    ((sighting seen id now).1 = true →
      (sighting seen id now).2 id = some now ∧
      ∀ other, other ≠ id → (sighting seen id now).2 other = seen other) ∧
    ((sighting seen id now).1 = false → (sighting seen id now).2 = seen) ∧
    (∀ a b nowa nowb, a ≠ b →
      (sighting (sighting seen b nowb).2 a nowa).1 = (sighting seen a nowa).1) :=
  ⟨(sighting_frame seen id now).1, (sighting_frame seen id now).2,
    fun a b nowa nowb hab => sighting_other seen a b nowa nowb hab⟩

theorem sighting_record_frame_witness :
    (sighting (fun _ => none) "AAL100" 50).2 "AAL100" = some 50 ∧
    (sighting (sighting (fun _ => none) "UAL7" 40).2 "AAL100" 50).1
      = (sighting (fun _ => none) "AAL100" 50).1 :=
  ⟨((sighting_record_frame (fun _ => none) "AAL100" 50).1 (by decide)).1,
   (sighting_record_frame (fun _ => none) "AAL100" 50).2.2 "AAL100" "UAL7" 50 40
      (by decide)⟩

/-- C5: a run of sightings from the empty map with non-decreasing times.  The
posts are exactly the sightings flagged true; two posts for one flight number
are at least 7200 seconds apart; and after every initial part of the run the map
holds, for each flight number, the time of its latest post.  For each time `t`
of the run the sum `t + 7200` is taken within `int64`, as it is for every Unix
time the clock gives. -/
theorem cooldown_spacing (l : List (String × Int))
    (hmono : l.Pairwise (fun a b => a.2 ≤ b.2))
    (hr : ∀ s ∈ l, -2 ^ 63 ≤ s.2 + 7200 ∧ s.2 + 7200 < 2 ^ 63) :
    posted (fun _ => none) l
      = ((l.zip (sightings (fun _ => none) l).1).filter (fun x => x.2)).map (fun x => x.1) ∧
    (posted (fun _ => none) l).Pairwise (fun a b => a.1 = b.1 → a.2 + 7200 ≤ b.2) ∧
    ∀ n id, (sightings (fun _ => none) (l.take n)).2 id
      = lastPost id (posted (fun _ => none) (l.take n)) := by
  refine ⟨posted_eq_accepted l _, ?_, ?_⟩
  · exact (posted_spaced l (fun _ => none) (by intro id t h; cases h) hmono hr).1
  · intro n id
    rw [sightings_seen]
    simp

theorem cooldown_spacing_witness :
    (posted (fun _ => none)
      [("AAL100", 0), ("UAL7", 50), ("AAL100", 100), ("AAL100", 7201)]).Pairwise
      (fun a b => a.1 = b.1 → a.2 + 7200 ≤ b.2) :=
  (cooldown_spacing [("AAL100", 0), ("UAL7", 50), ("AAL100", 100), ("AAL100", 7201)]
    (by decide) (by decide)).2.1

/-- C6: `raycastIntersect` gives the same result, a boolean or the same fault,
whichever endpoint is passed first; this includes endpoints of equal longitude,
where neither call swaps.  The three longitudes are taken to be numbers: every
comparison with a NaN is false, so a NaN longitude is never swapped into place. -/
theorem raycastIntersect_endpoint_order (fuel : Nat) (pLat pLon sLat sLon eLat eLon : F64)
    (hp : pLon.isNaN = false) (hs : sLon.isNaN = false) (he : eLon.isNaN = false) :
    raycastIntersect fuel pLat pLon sLat sLon eLat eLon =
      raycastIntersect fuel pLat pLon eLat eLon sLat sLon :=
  raycastIntersect_symm fuel pLat pLon sLat sLon eLat eLon hp hs he

theorem raycastIntersect_endpoint_order_witness :
    raycastIntersect 2 (F64.ofInt 3) (F64.ofInt 2) (F64.ofInt 4) (F64.ofInt 0) (F64.ofInt 0)
        (F64.ofInt 4) =
      raycastIntersect 2 (F64.ofInt 3) (F64.ofInt 2) (F64.ofInt 0) (F64.ofInt 4) (F64.ofInt 4)
        (F64.ofInt 0) ∧
    raycastIntersect 2 (F64.ofInt 3) (F64.ofInt 2) (F64.ofInt 4) (F64.ofInt 2) (F64.ofInt 0)
        (F64.ofInt 2) =
      raycastIntersect 2 (F64.ofInt 3) (F64.ofInt 2) (F64.ofInt 0) (F64.ofInt 2) (F64.ofInt 4)
        (F64.ofInt 2) :=
  ⟨raycastIntersect_endpoint_order 2 (F64.ofInt 3) (F64.ofInt 2) (F64.ofInt 4) (F64.ofInt 0)
      (F64.ofInt 0) (F64.ofInt 4) (by decide!) (by decide!) (by decide!),
   raycastIntersect_endpoint_order 2 (F64.ofInt 3) (F64.ofInt 2) (F64.ofInt 4) (F64.ofInt 2)
      (F64.ofInt 0) (F64.ofInt 2) (by decide!) (by decide!) (by decide!)⟩

/-- C7: between finite endpoint longitudes the perturbation loop stops after at
most two turns from any starting longitude: the values it takes form a list of
at most three, each the `Nextafter` of the one before and strictly greater, the
last differing from both endpoints and being the result with any fuel of two or
more.  Hence `raycastIntersect` returns a boolean, and so does `InArea` for a
finite area and a position on any of its four corners, the latitude and the
longitude being the ones `InArea` reads at index 0 and 1 of the corner. -/
theorem perturbation_terminates :
    (∀ pLon sLon eLon : F64, pLon.isFinite = true → sLon.isFinite = true →
      eLon.isFinite = true →
      ∃ t q, perturbTrace sLon eLon 2 pLon = .ok t ∧ t.length ≤ 3 ∧ t.head? = some pLon ∧
        List.Chain' (fun a b => b = F64.Nextafter a (F64.Inf 1) ∧ F64.flt a b = true) t ∧
        t.getLast? = some q ∧ F64.feq q sLon = false ∧ F64.feq q eLon = false ∧
        (∀ fuel, 2 ≤ fuel → perturb sLon eLon fuel pLon = .ok q) ∧
        (∀ fuel pLat sLat eLat, 2 ≤ fuel →
          ∃ b, raycastIntersect fuel pLat pLon sLat sLon eLat eLon = .ok b)) ∧
    (∀ (area : Area) (props : AircraftProperties), area.isFinite = true →
      ∀ corner ∈ [area.NW, area.NE, area.SE, area.SW], ∀ lat lon,
        index corner 0 = .ok lat → index corner 1 = .ok lon → ∀ fuel, 2 ≤ fuel →
        ∃ b, InArea fuel area (aircraftAt lat lon props) = .ok b) := by
  constructor
  · intro pLon sLon eLon _ hs he
    have ns := isFinite_not_posInf sLon hs
    have ne := isFinite_not_posInf eLon he
    obtain ⟨t, q, h1, h2, h3, h4, h5, h6⟩ := perturbTrace_spec sLon eLon pLon ns ne
    have hx := perturb_exit _ _ _ _ _ (h6 0)
    refine ⟨t, q, h1, h2, h3, h4, h5, hx.1, hx.2, ?_, ?_⟩
    · intro fuel hfuel
      obtain ⟨k, rfl⟩ : ∃ k, fuel = k + 2 := ⟨fuel - 2, by omega⟩
      exact h6 k
    · intro fuel pLat sLat eLat hfuel
      obtain ⟨k, rfl⟩ : ∃ k, fuel = k + 2 := ⟨fuel - 2, by omega⟩
      obtain ⟨b, hb⟩ := raycastIntersect_total pLat pLon sLat sLon eLat eLon ns ne
      exact ⟨b, hb k⟩
  · intro area props harea corner _ lat lon _ _ fuel hfuel
    obtain ⟨k, rfl⟩ : ∃ k, fuel = k + 2 := ⟨fuel - 2, by omega⟩
    obtain ⟨b, hb⟩ := InArea_total area (aircraftAt lat lon props) harea
      (by simp [aircraftAt])
    exact ⟨b, hb k⟩

theorem perturbation_terminates_witness :
    (∃ t q, perturbTrace (F64.ofInt 0) (F64.ofInt 1) 2 (F64.ofInt 1) = .ok t ∧
      t.length ≤ 3 ∧ t.getLast? = some q ∧ F64.feq q (F64.ofInt 1) = false) ∧
    (∃ b, InArea 2 (rectangle (F64.ofInt 1) (F64.ofInt 0) (F64.ofInt 1) (F64.ofInt 0))
      (aircraftAt (F64.ofInt 1) (F64.ofInt 0) sampleProps) = .ok b) := by
  constructor
  · obtain ⟨t, q, h1, h2, _, _, h5, _, h7, _⟩ :=
      perturbation_terminates.1 (F64.ofInt 1) (F64.ofInt 0) (F64.ofInt 1) (by decide!)
        (by decide!) (by decide!)
    exact ⟨t, q, h1, h2, h5, h7⟩
  · exact perturbation_terminates.2
      (rectangle (F64.ofInt 1) (F64.ofInt 0) (F64.ofInt 1) (F64.ofInt 0)) sampleProps
      (by decide!) [F64.ofInt 1, F64.ofInt 0] (by simp [rectangle]) (F64.ofInt 1)
      (F64.ofInt 0) (by simp [index]) (by simp [index]) 2 (by decide)

/-- C8: on the convex area NW = (4, 0), NE = (4, 8), SE = (0, 8), SW = (0, 4) the
position at latitude 3 and longitude 2 lies strictly inside and `InArea` answers
true, yet the `minLon` passed to `GetAircraftInVicinity` is 4, the greater of the
two west longitudes, and the position lies west of it. -/
theorem boundingBox_misses_contained_position :
    leaningWestEdge.convex = true ∧
    leaningWestEdge.strictlyInside (F64.ofInt 3) (F64.ofInt 2) = true ∧
    InArea 2 leaningWestEdge (aircraftAt (F64.ofInt 3) (F64.ofInt 2) sampleProps)
      = .ok true ∧
    boundingBox leaningWestEdge
      = .ok (F64.ofInt 4, F64.ofInt 0, F64.ofInt 8, F64.ofInt 4) ∧
    (boundingBox leaningWestEdge).map (fun box => F64.flt (F64.ofInt 2) box.2.2.2)
      = .ok true := by
  decide!

/-- C9: for an area whose corners each hold a finite latitude and longitude,
fuel of two or more, a successful fetch, and a fetched list in which every
airline or cargo aircraft holds at least two coordinates,
`GetAircraftInWatchArea` returns the fetched aircraft filtered, order and
repetitions kept, by: type airline or cargo, and `InArea` answering true.
Aircraft of another type may hold any coordinates: they are never read. -/
theorem GetAircraftInWatchArea_filter (fuel : Nat)
    (GetAircraftInVicinity : F64 → F64 → F64 → F64 → String → Except Fault (List Aircraft))
    (area : Area) (token : String) (aircraft : List Aircraft)
    (hfuel : 2 ≤ fuel) (harea : area.isFinite = true)
    (hfetch : ∀ box, boundingBox area = .ok box →
      GetAircraftInVicinity box.2.2.1 box.2.2.2 box.1 box.2.1 token = .ok aircraft)
    (hcoords : ∀ a ∈ aircraft,
      a.Properties.FlightType = "airline" ∨ a.Properties.FlightType = "cargo" →
      2 ≤ a.Location.Coordinates.length) :
    GetAircraftInWatchArea fuel GetAircraftInVicinity area token
      = .ok (aircraft.filter (kept fuel area)) ∧
    ∀ a, a ∈ aircraft.filter (kept fuel area) ↔
      a ∈ aircraft ∧
      (a.Properties.FlightType = "airline" ∨ a.Properties.FlightType = "cargo") ∧
      InArea fuel area a = .ok true := by
  obtain ⟨k, rfl⟩ : ∃ k, fuel = k + 2 := ⟨fuel - 2, by omega⟩
  constructor
  · obtain ⟨box, hbox⟩ := boundingBox_total area harea
    have hf := hfetch box hbox
    obtain ⟨maxLat, minLat, maxLon, minLon⟩ := box
    simp only at hf
    simp only [GetAircraftInWatchArea, hbox, hf]
    rw [watchLoop_eq_filter k area harea aircraft [] hcoords]
    rfl
  · intro a
    simp [List.mem_filter, kept]

theorem GetAircraftInWatchArea_filter_witness :
    GetAircraftInWatchArea 2
      (fun _ _ _ _ _ => .ok [aircraftAt (F64.ofRat 1 2) (F64.ofRat 1 2) sampleProps,
        aircraftAt (F64.ofInt 2) (F64.ofInt 2) sampleProps, shortGeneralAviation])
      (rectangle (F64.ofInt 1) (F64.ofInt 0) (F64.ofInt 1) (F64.ofInt 0)) "abc123"
      = .ok ([aircraftAt (F64.ofRat 1 2) (F64.ofRat 1 2) sampleProps,
        aircraftAt (F64.ofInt 2) (F64.ofInt 2) sampleProps, shortGeneralAviation].filter
          (kept 2 (rectangle (F64.ofInt 1) (F64.ofInt 0) (F64.ofInt 1) (F64.ofInt 0)))) :=
  (GetAircraftInWatchArea_filter 2 _ _ "abc123" _ (by decide) (by decide!)
    (fun _ _ => rfl) (by decide)).1

/-- C9 needs the condition on the coordinates: on the unit square, a fetched
list holding AAL100 inside the square followed by an airline feature with the single coordinate 1/2 makes
`GetAircraftInWatchArea` panic with an index out of range, where the claim has
it return the sub-list holding AAL100; and an area whose NW corner holds a
single number panics before anything is fetched. -/
theorem GetAircraftInWatchArea_short_coordinates :
    GetAircraftInWatchArea 2
      (fun _ _ _ _ _ => .ok [aircraftAt (F64.ofRat 1 2) (F64.ofRat 1 2) sampleProps,
        shortAirline])
      (rectangle (F64.ofInt 1) (F64.ofInt 0) (F64.ofInt 1) (F64.ofInt 0)) "abc123"
      = .error .indexOutOfRange ∧
    GetAircraftInWatchArea 2
      (fun _ _ _ _ _ => .ok [aircraftAt (F64.ofRat 1 2) (F64.ofRat 1 2) sampleProps,
        shortAirline])
      (rectangle (F64.ofInt 1) (F64.ofInt 0) (F64.ofInt 1) (F64.ofInt 0)) "abc123"
      ≠ .ok ([aircraftAt (F64.ofRat 1 2) (F64.ofRat 1 2) sampleProps, shortAirline].filter
        (kept 2 (rectangle (F64.ofInt 1) (F64.ofInt 0) (F64.ofInt 1) (F64.ofInt 0)))) ∧
    [aircraftAt (F64.ofRat 1 2) (F64.ofRat 1 2) sampleProps, shortAirline].filter
        (kept 2 (rectangle (F64.ofInt 1) (F64.ofInt 0) (F64.ofInt 1) (F64.ofInt 0)))
      = [aircraftAt (F64.ofRat 1 2) (F64.ofRat 1 2) sampleProps] ∧
    GetAircraftInWatchArea 2 (fun _ _ _ _ _ => .ok [])
      ⟨[F64.ofInt 1], [F64.ofInt 1, F64.ofInt 1], [F64.ofInt 0, F64.ofInt 0],
        [F64.ofInt 0, F64.ofInt 1]⟩ "abc123"
      = .error .indexOutOfRange := by
  decide!

/-- C10: on a tick whose token request fails `GetFAToken` panics with a nil
dereference, and on a tick whose page holds no match of the token pattern it
panics with an index out of range; `tick` stops with the same panic without
producing a map, and so does `mainLoop` whatever ticks follow: no later tick
runs. -/
theorem missing_token_stops_process (fuel : Nat) (config : Config) (t : Tick)
    (rest : List Tick) (seen : Seen) :
    (t.httpGet ("https://flightaware.com/live/airport/" ++ config.Airport) = none →
      GetFAToken t.httpGet t.FindStringSubmatch config.Airport = .error .nilDereference ∧
      tick fuel config t seen = .error .nilDereference ∧
      mainLoop fuel config (t :: rest) seen = .error .nilDereference) ∧
    (∀ body, t.httpGet ("https://flightaware.com/live/airport/" ++ config.Airport)
        = some body → t.FindStringSubmatch body = [] →
      GetFAToken t.httpGet t.FindStringSubmatch config.Airport = .error .indexOutOfRange ∧
      tick fuel config t seen = .error .indexOutOfRange ∧
      mainLoop fuel config (t :: rest) seen = .error .indexOutOfRange) := by
  constructor
  · intro h
    simp [mainLoop, tick, GetFAToken, h]
  · intro body h hb
    simp [mainLoop, tick, GetFAToken, h, hb]

theorem missing_token_stops_process_witness :
    GetFAToken tickWithoutToken.httpGet tickWithoutToken.FindStringSubmatch "SEA"
      = .error .indexOutOfRange ∧
    tick 2 ⟨"https://example.org/hook", leaningWestEdge, "SEA"⟩ tickWithoutToken
      (fun _ => none) = .error .indexOutOfRange ∧
    mainLoop 2 ⟨"https://example.org/hook", leaningWestEdge, "SEA"⟩
      [tickWithoutToken, tickWithFlight] (fun _ => none) = .error .indexOutOfRange :=
  (missing_token_stops_process 2 ⟨"https://example.org/hook", leaningWestEdge, "SEA"⟩
    tickWithoutToken [tickWithFlight] (fun _ => none)).2 _ rfl rfl

end WhatsAboveMe
